import Mathlib

/-!
Verification of the ludwig configuration-validation pipeline
(`ludwig/config_validation/validations.py`) and the DDP local-topology
discovery protocol (`ludwig/distributed/ddp.py`), via a shallow embedding.

Conventions of the embedding:
* Python dicts with string keys are modelled as association lists
  `List (String × α)` with insertion-order semantics (`dinsert` overwrites
  in place, otherwise appends; `dlookup`/`dget` find the unique binding).
* A Python `d[k]` access that can fail is modelled by `Except PyErr`,
  where `PyErr.keyError k` models `KeyError(k)` and `PyErr.valueError msg`
  models `ValueError(msg)`.
* Configurations are structures whose fields are `Option`-valued: `none`
  models an absent dict key.
* f-string error messages are modelled as explicit string concatenations;
  the quote characters around interpolated values are elided.  The missing
  space in "for thetrainer.validation_field" is present in the source
  (two adjacent f-string literals) and is kept.
* External collaborators of `validate_config` (the config upgrader, the
  jsonschema structural validation together with the schema/validator
  caches and the validation lock, and the splitter factory) are opaque in
  the source module and are modelled as parameters (`Externals`).
* The feature metric registry (`output_type_registry[t].metric_functions`)
  is a collaborator keyed by feature type string returning the list of
  valid metric names; it is modelled as a parameter
  `registry : String → List String`.
-/

namespace Ludwig

/-! ### Constants (from `ludwig.constants`) -/

def COMBINED : String := "combined"

def LOSS : String := "loss"

def MODEL_ECD : String := "ecd"

def MODEL_TYPE : String := "model_type"

def NAME : String := "name"

def OUTPUT_FEATURES : String := "output_features"

def PREPROCESSING : String := "preprocessing"

def SPLIT : String := "split"

def TRAINER : String := "trainer"

def TYPE : String := "type"

/-! ### Python-level values and errors -/

/-- Python exceptions that the validation code can raise: `KeyError(key)`
from a failing dict access and `ValueError(msg)` from an explicit raise. -/
inductive PyErr where
  | keyError (key : String)
  | valueError (msg : String)
deriving DecidableEq, Repr

/-- An input or output feature descriptor: a dict that may carry a
`"name"` and a `"type"` entry (absent keys are `none`). -/
structure Feature where
  name : Option String
  type : Option String
deriving DecidableEq, Repr

/-- The `trainer` section of a config; every key may be absent. -/
structure TrainerSection where
  validation_field : Option String
  validation_metric : Option String
  checkpoints_per_epoch : Option Nat
  steps_per_checkpoint : Option Nat
deriving DecidableEq, Repr

/-- The `preprocessing` section; `split` is an opaque keyword-option dict
handed to the splitter factory. -/
structure PreprocessingSection where
  split : Option (List (String × String))
deriving DecidableEq, Repr

/-- A (partial) ludwig configuration dict.  Fields are `Option`-valued:
`none` models an absent top-level key. -/
structure Config where
  model_type : Option String
  input_features : Option (List Feature)
  output_features : Option (List Feature)
  trainer : Option TrainerSection
  preprocessing : Option PreprocessingSection
deriving DecidableEq, Repr

/-- Models `d[key]` on a structure field: an absent key raises `KeyError(key)`. -/
def getKey (v : Option α) (key : String) : Except PyErr α :=
  match v with
  | some x => Except.ok x
  | none => Except.error (PyErr.keyError key)

/-! ### Python dict model (insertion-ordered association list) -/

/-- Models `d.keys()` in insertion order. -/
def dkeys (d : List (String × α)) : List String := d.map Prod.fst

/-- Models the membership test `k in d`. -/
def dcontains (d : List (String × α)) (k : String) : Bool :=
  (dkeys d).contains k

/-- Models `d[k] = v`: overwrite in place when the key exists, else append. -/
def dinsert (d : List (String × α)) (k : String) (v : α) : List (String × α) :=
  if dcontains d k then d.map (fun p => if p.1 == k then (p.1, v) else p)
  else d ++ [(k, v)]

/-- Lookup of the binding of `k`, if any. -/
def dlookup (d : List (String × α)) (k : String) : Option α :=
  (d.find? (fun p => p.1 == k)).map Prod.snd

/-- Models `d[k]` as an expression: raises `KeyError(k)` when absent. -/
def dget (d : List (String × α)) (k : String) : Except PyErr α :=
  match dlookup d k with
  | some v => Except.ok v
  | none => Except.error (PyErr.keyError k)

/-! ### `ludwig/distributed/ddp.py`: `local_rank_and_size`

The transport inputs (`dist.get_rank()`, `socket.gethostname()` and the
all-gathered list of `(rank, host)` pairs) are parameters. -/

/-- Embeds the counting loop of `local_rank_and_size`: for every gathered
entry on the same host, `local_size` is incremented, and `local_rank` is
incremented when the entry's global rank is strictly below the caller's.
Returns `(local_rank, local_size)`. -/
def local_rank_and_size (rank : Nat) (host : String) (output : List (Nat × String)) :
    Nat × Nat :=
  output.foldl
    (fun acc p =>
      if p.2 == host then
        ((if p.1 < rank then acc.1 + 1 else acc.1), acc.2 + 1)
      else acc)
    (0, 0)

/-! ### Basic lemmas about the fold in `local_rank_and_size` -/

theorem local_rank_and_size_foldl_shift (rank : Nat) (host : String)
    (output : List (Nat × String)) (a b : Nat) :
    output.foldl
      (fun acc p =>
        if p.2 == host then
          ((if p.1 < rank then acc.1 + 1 else acc.1), acc.2 + 1)
        else acc)
      (a, b)
    = (a + (local_rank_and_size rank host output).1,
       b + (local_rank_and_size rank host output).2) := by
  induction output generalizing a b with
  | nil => simp [local_rank_and_size]
  | cons p rest ih =>
    simp only [local_rank_and_size, List.foldl_cons]
    by_cases h2 : p.2 = host
    · by_cases h1 : p.1 < rank
      · simp only [h2, beq_self_eq_true, if_true, h1]
        rw [ih, ih 1 1]
        simp [Nat.add_assoc]
      · simp only [h2, beq_self_eq_true, if_true, h1, if_false]
        rw [ih, ih 0 1]
        simp [Nat.add_assoc]
    · have hh : (p.2 == host) = false := by simp [h2]
      simp only [hh, Bool.false_eq_true, if_false]
      exact ih a b

theorem local_rank_and_size_eq_counts (rank : Nat) (host : String)
    (output : List (Nat × String)) :
    local_rank_and_size rank host output
    = (output.countP (fun p => p.2 == host && decide (p.1 < rank)),
       output.countP (fun p => p.2 == host)) := by
  induction output with
  | nil => simp [local_rank_and_size]
  | cons p rest ih =>
    simp only [local_rank_and_size, List.foldl_cons]
    by_cases h2 : p.2 = host
    · by_cases h1 : p.1 < rank
      · simp only [h2, beq_self_eq_true, if_true, h1]
        rw [local_rank_and_size_foldl_shift rank host rest 1 1]
        rw [show local_rank_and_size rank host rest = _ from ih]
        simp [List.countP_cons, h2, h1, Nat.add_comm]
      · simp only [h2, beq_self_eq_true, if_true, h1, if_false]
        rw [local_rank_and_size_foldl_shift rank host rest 0 1]
        rw [show local_rank_and_size rank host rest = _ from ih]
        simp [List.countP_cons, h2, h1, Nat.add_comm]
    · have hh : (p.2 == host) = false := by simp [h2]
      simp only [hh, Bool.false_eq_true, if_false]
      rw [show (List.foldl
          (fun acc p =>
            if p.2 == host then
              ((if p.1 < rank then acc.1 + 1 else acc.1), acc.2 + 1)
            else acc)
          (0, 0) rest) = local_rank_and_size rank host rest from rfl]
      rw [show local_rank_and_size rank host rest = _ from ih]
      simp [List.countP_cons, hh]

/-! ### `ludwig/config_validation/validations.py` -/

/-- The message of the `ValueError` raised for an invalid
`trainer.validation_field` (quote characters elided). -/
def invalid_validation_field_msg (validation_field : String)
    (available : List String) : String :=
  "The specified trainer.validation_field " ++
    (validation_field ++
      (" is not valid. Available validation fields are: " ++
        String.intercalate ", " available))

/-- Rendering of the feature-to-metric-names dict inside the metric error
message (stands in for Python's dict repr). -/
def render_metric_map (m : List (String × List String)) : String :=
  String.intercalate "; " (m.map (fun p => p.1 ++ ": " ++ String.intercalate ", " p.2))

/-- The message of the `ValueError` raised for an invalid
`trainer.validation_metric`.  The missing space in
"for thetrainer.validation_field" reproduces the adjacent f-string
literals of the source. -/
def invalid_validation_metric_msg (validation_metric : String)
    (validation_field : String) (m : List (String × List String)) : String :=
  "The specified trainer.validation_metric " ++
    (validation_metric ++
      (" is not valid for thetrainer.validation_field " ++
        (validation_field ++
          (". Available (validation_field, validation_metric) pairs are " ++
            render_metric_map m))))

/-- The loop body of `get_feature_to_metric_names_map`: walk the output
features accumulating `metrics_names[name] = output_type_registry[type].metric_functions`;
a feature missing `"name"` or `"type"` raises `KeyError`. -/
def feature_metric_fold (registry : String → List String) :
    List Feature → List (String × List String) →
      Except PyErr (List (String × List String))
  | [], metrics_names => Except.ok metrics_names
  | output_feature :: rest, metrics_names => do
    let output_feature_name ← getKey output_feature.name NAME
    let output_feature_type ← getKey output_feature.type TYPE
    feature_metric_fold registry rest
      (dinsert metrics_names output_feature_name (registry output_feature_type))

/-- Embeds `get_feature_to_metric_names_map`: a dict from output feature
name to the list of that feature type's registered metric names, with a
final entry `metrics_names[COMBINED] = [LOSS]`. -/
def get_feature_to_metric_names_map (registry : String → List String)
    (output_features : List Feature) :
    Except PyErr (List (String × List String)) := do
  let metrics_names ← feature_metric_fold registry output_features []
  Except.ok (dinsert metrics_names COMBINED [LOSS])

/-- Embeds `check_validation_metrics_are_valid`: validates
`trainer.validation_field` and `trainer.validation_metric` against the
feature-to-metric-names map; raw dict accesses can raise `KeyError`. -/
def check_validation_metrics_are_valid (registry : String → List String)
    (config : Config) : Except PyErr Unit := do
  let output_features ← getKey config.output_features OUTPUT_FEATURES
  let feature_to_metric_names_map ←
    get_feature_to_metric_names_map registry output_features
  let trainer_a ← getKey config.trainer TRAINER
  let validation_field ← getKey trainer_a.validation_field "validation_field"
  let trainer_b ← getKey config.trainer TRAINER
  let validation_metric ← getKey trainer_b.validation_metric "validation_metric"
  if dcontains feature_to_metric_names_map validation_field = false then
    Except.error (PyErr.valueError
      (invalid_validation_field_msg validation_field
        (dkeys feature_to_metric_names_map)))
  else do
    let metric_names ← dget feature_to_metric_names_map validation_field
    let valid_validation_metric := metric_names.contains validation_metric
    if valid_validation_metric = false then
      Except.error (PyErr.valueError
        (invalid_validation_metric_msg validation_metric validation_field
          feature_to_metric_names_map))
    else
      Except.ok ()

/-! The remaining checks of the battery are stubs in the source: each has a
docstring stating its intended invariant but a body that is just `pass`. -/

/-- Embeds `check_feature_names_unique`; the source docstring says
"Checks that all feature names are unique" but the body is `pass`. -/
def check_feature_names_unique (_config : Config) : Except PyErr Unit :=
  Except.ok ()

/-- Embeds `check_tied_features_are_valid`; body is `pass`. -/
def check_tied_features_are_valid (_config : Config) : Except PyErr Unit :=
  Except.ok ()

/-- Embeds `check_dependent_features`; body is empty. -/
def check_dependent_features (_config : Config) : Except PyErr Unit :=
  Except.ok ()

/-- Embeds `check_training_runway`; the source docstring says "Checks that
checkpoints_per_epoch and steps_per_checkpoint aren't simultaneously
defined" but the body is `pass`. -/
def check_training_runway (_config : Config) : Except PyErr Unit :=
  Except.ok ()

/-- Embeds `check_gbm_horovod_incompatibility`; body is `pass`. -/
def check_gbm_horovod_incompatibility (_config : Config) : Except PyErr Unit :=
  Except.ok ()

/-- Embeds `check_gbm_feature_types`; body is `pass`. -/
def check_gbm_feature_types (_config : Config) : Except PyErr Unit :=
  Except.ok ()

/-- Embeds `check_ray_backend_in_memory_preprocessing`; body is `pass`. -/
def check_ray_backend_in_memory_preprocessing (_config : Config) :
    Except PyErr Unit :=
  Except.ok ()

/-- Embeds `check_sequence_concat_combiner_requirements`; body is `pass`. -/
def check_sequence_concat_combiner_requirements (_config : Config) :
    Except PyErr Unit :=
  Except.ok ()

/-- Embeds `check_tabtransformer_combiner_requirements`; body is `pass`. -/
def check_tabtransformer_combiner_requirements (_config : Config) :
    Except PyErr Unit :=
  Except.ok ()

/-- Embeds `check_comparator_combiner_requirements`; body is `pass`. -/
def check_comparator_combiner_requirements (_config : Config) :
    Except PyErr Unit :=
  Except.ok ()

/-- Embeds `check_class_balance_preprocessing`; body is `pass`. -/
def check_class_balance_preprocessing (_config : Config) : Except PyErr Unit :=
  Except.ok ()

/-- Embeds `check_sampling_exclusivity`; body is `pass`. -/
def check_sampling_exclusivity (_config : Config) : Except PyErr Unit :=
  Except.ok ()

/-- Embeds `check_hyperopt_search_space`; body is `pass`. -/
def check_hyperopt_search_space (_config : Config) : Except PyErr Unit :=
  Except.ok ()

/-- Embeds `check_hyperopt_metric_targets`; body is `pass`. -/
def check_hyperopt_metric_targets (_config : Config) : Except PyErr Unit :=
  Except.ok ()

/-- Embeds `check_gbm_single_output_feature`; body is `pass`. -/
def check_gbm_single_output_feature (_config : Config) : Except PyErr Unit :=
  Except.ok ()

/-- The external collaborators of `validate_config`:
`upgrade` models `upgrade_config_dict_to_latest_version`;
`schema_validate model_type config` models
`validate(instance=config, schema=get_schema(model_type), cls=get_validator())`
performed under `VALIDATION_LOCK`;
`get_splitter opts config` models `get_splitter(**opts).validate(config)`. -/
structure Externals where
  upgrade : Config → Config
  schema_validate : String → Config → Except PyErr Unit
  get_splitter : List (String × String) → Config → Except PyErr Unit

/-- Embeds `validate_config`: upgrade, model-type determination (default
`MODEL_ECD`), structural schema validation, then — only when
`include_auxiliary_validations` is true — the splitter validation followed
by the fixed sequence of semantic checks. -/
def validate_config (ext : Externals) (registry : String → List String)
    (config : Config) (include_auxiliary_validations : Bool) :
    Except PyErr Unit := do
  let updated_config := ext.upgrade config
  let model_type := updated_config.model_type.getD MODEL_ECD
  ext.schema_validate model_type updated_config
  if include_auxiliary_validations then
    let split_options :=
      match updated_config.preprocessing with
      | some preprocessing_section => preprocessing_section.split.getD []
      | none => []
    ext.get_splitter split_options updated_config
    check_validation_metrics_are_valid registry updated_config
    check_feature_names_unique updated_config
    check_tied_features_are_valid updated_config
    check_dependent_features updated_config
    check_training_runway updated_config
    check_gbm_horovod_incompatibility updated_config
    check_gbm_feature_types updated_config
    check_ray_backend_in_memory_preprocessing updated_config
    check_sequence_concat_combiner_requirements updated_config
    check_tabtransformer_combiner_requirements updated_config
    check_comparator_combiner_requirements updated_config
    check_class_balance_preprocessing updated_config
    check_sampling_exclusivity updated_config
    check_hyperopt_search_space updated_config
    check_hyperopt_metric_targets updated_config
    check_gbm_single_output_feature updated_config

/-- The semantic check battery in the exact call order of
`validate_config`, each check paired with its source-level name. -/
def check_battery (registry : String → List String) :
    List (String × (Config → Except PyErr Unit)) :=
  [("check_validation_metrics_are_valid", check_validation_metrics_are_valid registry),
   ("check_feature_names_unique", check_feature_names_unique),
   ("check_tied_features_are_valid", check_tied_features_are_valid),
   ("check_dependent_features", check_dependent_features),
   ("check_training_runway", check_training_runway),
   ("check_gbm_horovod_incompatibility", check_gbm_horovod_incompatibility),
   ("check_gbm_feature_types", check_gbm_feature_types),
   ("check_ray_backend_in_memory_preprocessing", check_ray_backend_in_memory_preprocessing),
   ("check_sequence_concat_combiner_requirements", check_sequence_concat_combiner_requirements),
   ("check_tabtransformer_combiner_requirements", check_tabtransformer_combiner_requirements),
   ("check_comparator_combiner_requirements", check_comparator_combiner_requirements),
   ("check_class_balance_preprocessing", check_class_balance_preprocessing),
   ("check_sampling_exclusivity", check_sampling_exclusivity),
   ("check_hyperopt_search_space", check_hyperopt_search_space),
   ("check_hyperopt_metric_targets", check_hyperopt_metric_targets),
   ("check_gbm_single_output_feature", check_gbm_single_output_feature)]

/-- Runs a list of named checks fail-fast over a config, returning the
names of the checks that were invoked together with the final outcome. -/
def run_battery :
    List (String × (Config → Except PyErr Unit)) → Config →
      List String × Except PyErr Unit
  | [], _ => ([], Except.ok ())
  | (n, f) :: rest, config =>
    match f config with
    | Except.error e => ([n], Except.error e)
    | Except.ok () =>
      let r := run_battery rest config
      (n :: r.1, r.2)

/-! ### Lemmas about the dict model -/

theorem dcontains_iff (d : List (String × α)) (k : String) :
    dcontains d k = true ↔ ∃ p ∈ d, p.1 = k := by
  simp [dcontains, dkeys, List.elem_iff, List.contains]

theorem dcontains_eq_false_iff (d : List (String × α)) (k : String) :
    dcontains d k = false ↔ ∀ p ∈ d, p.1 ≠ k := by
  rw [← Bool.not_eq_true, not_iff_comm, dcontains_iff]
  push_neg
  simp

theorem dlookup_eq_none_iff (d : List (String × α)) (k : String) :
    dlookup d k = none ↔ ∀ p ∈ d, p.1 ≠ k := by
  simp [dlookup, List.find?_eq_none]

theorem dlookup_append_none {d1 d2 : List (String × α)} {k : String}
    (h : dlookup d1 k = none) :
    dlookup (d1 ++ d2) k = dlookup d2 k := by
  simp only [dlookup, Option.map_eq_none'] at h
  simp [dlookup, List.find?_append, h]

theorem dlookup_append_some {d1 d2 : List (String × α)} {k : String} {v : α}
    (h : dlookup d1 k = some v) :
    dlookup (d1 ++ d2) k = some v := by
  simp only [dlookup, Option.map_eq_some'] at h
  obtain ⟨p, hp, hps⟩ := h
  simp [dlookup, List.find?_append, hp, hps]

theorem dlookup_singleton (k : String) (v : α) :
    dlookup [(k, v)] k = some v := by
  simp [dlookup]

theorem eok_bind {α β : Type} (x : α) (f : α → Except PyErr β) :
    (Except.ok x >>= f : Except PyErr β) = f x := rfl

theorem eerror_bind {α β : Type} (e : PyErr) (f : α → Except PyErr β) :
    ((Except.error e : Except PyErr α) >>= f : Except PyErr β) = Except.error e := rfl

theorem dlookup_cons_hit {q : String × α} {rest : List (String × α)} {k : String}
    (h : q.1 = k) : dlookup (q :: rest) k = some q.2 := by
  simp [dlookup, h]

theorem dlookup_cons_miss {q : String × α} {rest : List (String × α)} {k : String}
    (h : q.1 ≠ k) : dlookup (q :: rest) k = dlookup rest k := by
  simp [dlookup, h]

theorem dlookup_overwrite {d : List (String × α)} {k : String} {v : α}
    (h : dcontains d k = true) :
    dlookup (d.map (fun p => if p.1 == k then (p.1, v) else p)) k = some v := by
  induction d with
  | nil => simp [dcontains, dkeys] at h
  | cons q rest ih =>
    rw [List.map_cons]
    by_cases hq : q.1 = k
    · have hd : (if (q.1 == k) = true then (q.1, v) else q) = (q.1, v) := by
        simp [hq]
      rw [hd, dlookup_cons_hit (show ((q.1, v) : String × _).1 = k from hq)]
    · have hd : (if (q.1 == k) = true then (q.1, v) else q) = q := by
        simp [hq]
      have h' : dcontains rest k = true := by
        rcases (dcontains_iff _ _).mp h with ⟨p, hp, hpk⟩
        rcases List.mem_cons.mp hp with hph | hpr
        · exact absurd (hph ▸ hpk) hq
        · exact (dcontains_iff _ _).mpr ⟨p, hpr, hpk⟩
      rw [hd, dlookup_cons_miss hq]
      exact ih h'

theorem dlookup_map_preserve {d : List (String × α)} {k k' : String} {v : α}
    (h : k' ≠ k) :
    dlookup (d.map (fun p => if p.1 == k then (p.1, v) else p)) k'
      = dlookup d k' := by
  induction d with
  | nil => simp
  | cons q rest ih =>
    rw [List.map_cons]
    by_cases hq : q.1 = k
    · have hd : (if (q.1 == k) = true then (q.1, v) else q) = (q.1, v) := by
        simp [hq]
      have h1 : q.1 ≠ k' := by rw [hq]; exact Ne.symm h
      rw [hd, dlookup_cons_miss (show ((q.1, v) : String × _).1 ≠ k' from h1), ih,
        dlookup_cons_miss h1]
    · have hd : (if (q.1 == k) = true then (q.1, v) else q) = q := by
        simp [hq]
      by_cases hq' : q.1 = k'
      · rw [hd, dlookup_cons_hit hq', dlookup_cons_hit hq']
      · rw [hd, dlookup_cons_miss hq', dlookup_cons_miss hq', ih]

theorem dinsert_of_fresh {d : List (String × α)} {k : String} (v : α)
    (h : dcontains d k = false) :
    dinsert d k v = d ++ [(k, v)] := by
  simp [dinsert, h]

theorem dlookup_dinsert_self (d : List (String × α)) (k : String) (v : α) :
    dlookup (dinsert d k v) k = some v := by
  by_cases h : dcontains d k = true
  · simp only [dinsert, h, if_true]
    exact dlookup_overwrite h
  · have hf : dcontains d k = false := by simpa using h
    rw [dinsert_of_fresh v hf]
    have hnone : dlookup d k = none :=
      (dlookup_eq_none_iff d k).mpr ((dcontains_eq_false_iff d k).mp hf)
    rw [dlookup_append_none hnone]
    exact dlookup_singleton k v

theorem dlookup_dinsert_ne {d : List (String × α)} {k k' : String} (v : α)
    (h : k' ≠ k) :
    dlookup (dinsert d k v) k' = dlookup d k' := by
  by_cases hc : dcontains d k = true
  · simp only [dinsert, hc, if_true]
    exact dlookup_map_preserve h
  · have hf : dcontains d k = false := by simpa using hc
    rw [dinsert_of_fresh v hf]
    cases hd : dlookup d k' with
    | none =>
      rw [dlookup_append_none hd]
      have hkk : ((k, v) : String × α).1 ≠ k' := Ne.symm h
      rw [dlookup_cons_miss hkk]
      rfl
    | some w => rw [dlookup_append_some hd]

theorem dkeys_append (d1 d2 : List (String × α)) :
    dkeys (d1 ++ d2) = dkeys d1 ++ dkeys d2 := by
  simp [dkeys]

/-! ### Lemmas about the feature-to-metric-names map -/

/-- A fully-named feature: the dict with entries `name = p.1, type = p.2`. -/
def mkFeature (p : String × String) : Feature :=
  ⟨some p.1, some p.2⟩

theorem feature_metric_fold_named (registry : String → List String)
    (named : List (String × String)) (acc : List (String × List String)) :
    feature_metric_fold registry (named.map mkFeature) acc
      = Except.ok (named.foldl (fun m p => dinsert m p.1 (registry p.2)) acc) := by
  induction named generalizing acc with
  | nil => simp [feature_metric_fold]
  | cons p rest ih =>
    simp [feature_metric_fold, mkFeature, getKey, eok_bind, ih]

theorem foldl_dinsert_fresh (registry : String → List String) :
    ∀ (named : List (String × String)) (acc : List (String × List String)),
      (named.map Prod.fst).Nodup →
      (∀ p ∈ named, dcontains acc p.1 = false) →
      named.foldl (fun m p => dinsert m p.1 (registry p.2)) acc
        = acc ++ named.map (fun p => (p.1, registry p.2))
  | [], acc, _, _ => by simp
  | q :: rest, acc, hnd, hfresh => by
    have hq : dcontains acc q.1 = false := hfresh q (List.mem_cons_self q rest)
    have hnd1 : (q.1 :: rest.map Prod.fst).Nodup := by simpa using hnd
    have hnd' : (rest.map Prod.fst).Nodup := (List.nodup_cons.mp hnd1).2
    have hq1 : q.1 ∉ rest.map Prod.fst := (List.nodup_cons.mp hnd1).1
    have hqrest : ∀ p ∈ rest, p.1 ≠ q.1 := by
      intro p hp heq
      exact hq1 (heq ▸ List.mem_map_of_mem Prod.fst hp)
    have hfresh' : ∀ p ∈ rest,
        dcontains (acc ++ [(q.1, registry q.2)]) p.1 = false := by
      intro p hp
      rw [dcontains_eq_false_iff]
      intro r hr
      rcases List.mem_append.mp hr with hra | hrq
      · exact (dcontains_eq_false_iff acc p.1).mp
          (hfresh p (List.mem_cons_of_mem q hp)) r hra
      · have hr' : r = (q.1, registry q.2) := List.mem_singleton.mp hrq
        rw [hr']
        exact Ne.symm (hqrest p hp)
    calc (q :: rest).foldl (fun m p => dinsert m p.1 (registry p.2)) acc
        = rest.foldl (fun m p => dinsert m p.1 (registry p.2))
            (acc ++ [(q.1, registry q.2)]) := by
          rw [List.foldl_cons, dinsert_of_fresh _ hq]
      _ = (acc ++ [(q.1, registry q.2)]) ++ rest.map (fun p => (p.1, registry p.2)) :=
          foldl_dinsert_fresh registry rest _ hnd' hfresh'
      _ = acc ++ (q :: rest).map (fun p => (p.1, registry p.2)) := by
          simp

theorem get_map_named (registry : String → List String)
    (named : List (String × String)) :
    get_feature_to_metric_names_map registry (named.map mkFeature)
      = Except.ok
          (dinsert (named.foldl (fun m p => dinsert m p.1 (registry p.2)) [])
            COMBINED [LOSS]) := by
  simp [get_feature_to_metric_names_map, feature_metric_fold_named, eok_bind]

theorem get_map_named_nodup (registry : String → List String)
    (named : List (String × String))
    (hnd : (named.map Prod.fst).Nodup)
    (hnc : COMBINED ∉ named.map Prod.fst) :
    get_feature_to_metric_names_map registry (named.map mkFeature)
      = Except.ok
          (named.map (fun p => (p.1, registry p.2)) ++ [(COMBINED, [LOSS])]) := by
  rw [get_map_named]
  have hfold := foldl_dinsert_fresh registry named [] hnd (by intro p _; rfl)
  rw [hfold]
  have hfresh : dcontains (([] : List (String × List String))
      ++ named.map (fun p => (p.1, registry p.2))) COMBINED = false := by
    rw [dcontains_eq_false_iff]
    intro r hr
    simp only [List.nil_append, List.mem_map] at hr
    obtain ⟨p, hp, rfl⟩ := hr
    intro hcon
    exact hnc (hcon ▸ List.mem_map_of_mem Prod.fst hp)
  rw [dinsert_of_fresh _ hfresh]
  simp

theorem check_eval (registry : String → List String) (config : Config)
    (ofs : List Feature) (tr : TrainerSection) (vf vm : String)
    (M : List (String × List String))
    (hof : config.output_features = some ofs)
    (hmap : get_feature_to_metric_names_map registry ofs = Except.ok M)
    (htr : config.trainer = some tr)
    (hvf : tr.validation_field = some vf)
    (hvm : tr.validation_metric = some vm) :
    check_validation_metrics_are_valid registry config
      = if dcontains M vf = false then
          Except.error (PyErr.valueError
            (invalid_validation_field_msg vf (dkeys M)))
        else
          match dlookup M vf with
          | some metric_names =>
            if metric_names.contains vm = false then
              Except.error (PyErr.valueError
                (invalid_validation_metric_msg vm vf M))
            else Except.ok ()
          | none => Except.error (PyErr.keyError vf) := by
  by_cases hcont : dcontains M vf = false
  · simp only [check_validation_metrics_are_valid, hof, getKey, eok_bind, hmap,
      htr, hvf, hvm, hcont, if_true]
  · cases hlook : dlookup M vf with
    | none =>
      simp only [check_validation_metrics_are_valid, hof, getKey, eok_bind,
        eerror_bind, hmap, htr, hvf, hvm, hcont, Bool.true_eq_false, if_false,
        dget, hlook]
    | some metric_names =>
      simp only [check_validation_metrics_are_valid, hof, getKey, eok_bind,
        eerror_bind, hmap, htr, hvf, hvm, hcont, Bool.true_eq_false, if_false,
        dget, hlook]

theorem M_dkeys (registry : String → List String)
    (named : List (String × String)) :
    dkeys (named.map (fun p => (p.1, registry p.2)) ++ [(COMBINED, [LOSS])])
      = named.map Prod.fst ++ [COMBINED] := by
  simp [dkeys, List.map_map, Function.comp]

theorem M_contains_iff (registry : String → List String)
    (named : List (String × String)) (vf : String) :
    dcontains (named.map (fun p => (p.1, registry p.2)) ++ [(COMBINED, [LOSS])])
        vf = true
      ↔ vf ∈ named.map Prod.fst ∨ vf = COMBINED := by
  rw [dcontains_iff]
  constructor
  · rintro ⟨p, hp, hpk⟩
    rcases List.mem_append.mp hp with hA | hC
    · left
      rcases List.mem_map.mp hA with ⟨q, hq, hqe⟩
      have hq1 : q.1 = vf := by rw [← hpk, ← hqe]
      exact hq1 ▸ List.mem_map_of_mem Prod.fst hq
    · right
      have hpc : p = (COMBINED, [LOSS]) := List.mem_singleton.mp hC
      rw [← hpk, hpc]
  · intro hcase
    rcases hcase with hmem | hEq
    · rcases List.mem_map.mp hmem with ⟨q, hq, hqe⟩
      exact ⟨(q.1, registry q.2),
        List.mem_append_left _ (List.mem_map_of_mem _ hq), hqe⟩
    · exact ⟨(COMBINED, [LOSS]),
        List.mem_append_right _ (List.mem_singleton_self _), hEq.symm⟩

theorem M_lookup_combined (registry : String → List String)
    (named : List (String × String))
    (hnc : COMBINED ∉ named.map Prod.fst) :
    dlookup (named.map (fun p => (p.1, registry p.2)) ++ [(COMBINED, [LOSS])])
        COMBINED = some [LOSS] := by
  have hnone : dlookup (named.map (fun p => (p.1, registry p.2))) COMBINED
      = none := by
    rw [dlookup_eq_none_iff]
    intro p hp
    rcases List.mem_map.mp hp with ⟨q, hq, hqe⟩
    intro hcon
    apply hnc
    have : q.1 = COMBINED := by rw [← hcon, ← hqe]
    exact this ▸ List.mem_map_of_mem Prod.fst hq
  rw [dlookup_append_none hnone]
  exact dlookup_singleton _ _

theorem find?_key_unique {named : List (String × String)}
    {q : String × String}
    (hnd : (named.map Prod.fst).Nodup) (hq : q ∈ named) :
    named.find? (fun p => p.1 == q.1) = some q := by
  induction named with
  | nil => cases hq
  | cons r rest ih =>
    have hnd1 : (r.1 :: rest.map Prod.fst).Nodup := by simpa using hnd
    by_cases hr : r.1 = q.1
    · have hq' : q = r := by
        rcases List.mem_cons.mp hq with h | h
        · exact h
        · exact absurd (hr ▸ List.mem_map_of_mem Prod.fst h)
            (List.nodup_cons.mp hnd1).1
      rw [List.find?_cons_of_pos _ (by simp [hr])]
      rw [hq']
    · have hq' : q ∈ rest := by
        rcases List.mem_cons.mp hq with h | h
        · exact absurd (h ▸ rfl : r.1 = q.1) hr
        · exact h
      rw [List.find?_cons_of_neg _ (by simp [hr])]
      exact ih (List.nodup_cons.mp hnd1).2 hq'

theorem dlookup_map_pairs {β : Type} (g : String × String → β)
    (named : List (String × String)) (k : String) :
    dlookup (named.map (fun p => (p.1, g p))) k
      = (named.find? (fun p => p.1 == k)).map g := by
  induction named with
  | nil => simp [dlookup]
  | cons q rest ih =>
    rw [List.map_cons]
    by_cases hq : q.1 = k
    · rw [dlookup_cons_hit (show ((q.1, g q) : String × β).1 = k from hq)]
      rw [List.find?_cons_of_pos _ (by simp [hq])]
      rfl
    · rw [dlookup_cons_miss (show ((q.1, g q) : String × β).1 ≠ k from hq)]
      rw [List.find?_cons_of_neg _ (by simp [hq])]
      exact ih

theorem M_lookup_mem (registry : String → List String)
    {named : List (String × String)} {q : String × String}
    (hnd : (named.map Prod.fst).Nodup) (hq : q ∈ named) :
    dlookup (named.map (fun p => (p.1, registry p.2)) ++ [(COMBINED, [LOSS])])
        q.1 = some (registry q.2) := by
  have hA : dlookup (named.map (fun p => (p.1, registry p.2))) q.1
      = some (registry q.2) := by
    rw [dlookup_map_pairs (fun p => registry p.2) named q.1,
      find?_key_unique hnd hq]
    rfl
  exact dlookup_append_some hA

theorem dcontains_some {d : List (String × α)} {k : String}
    (h : dcontains d k = true) : ∃ v, dlookup d k = some v := by
  rcases (dcontains_iff d k).mp h with ⟨p, hp, hpk⟩
  have hsome : (d.find? (fun p => p.1 == k)).isSome := by
    rw [List.find?_isSome]
    exact ⟨p, hp, by simp [hpk]⟩
  rcases Option.isSome_iff_exists.mp hsome with ⟨q, hq⟩
  exact ⟨q.2, by simp [dlookup, hq]⟩

/-! ### Evaluation lemmas for `validate_config` and the battery -/

theorem validate_config_false_eval (ext : Externals)
    (registry : String → List String) (config : Config) :
    validate_config ext registry config false
      = ext.schema_validate ((ext.upgrade config).model_type.getD MODEL_ECD)
          (ext.upgrade config) := by
  cases hs : ext.schema_validate ((ext.upgrade config).model_type.getD MODEL_ECD)
      (ext.upgrade config) with
  | error e => simp [validate_config, hs, eerror_bind]
  | ok u =>
    cases u
    simp [validate_config, hs, eok_bind]

theorem validate_config_true_eval (ext : Externals)
    (registry : String → List String) (config : Config) :
    validate_config ext registry config true
      = (ext.schema_validate ((ext.upgrade config).model_type.getD MODEL_ECD)
            (ext.upgrade config) >>= fun _ =>
          ext.get_splitter
            (match (ext.upgrade config).preprocessing with
             | some preprocessing_section => preprocessing_section.split.getD []
             | none => []) (ext.upgrade config) >>= fun _ =>
          check_validation_metrics_are_valid registry (ext.upgrade config)) := by
  cases hs : ext.schema_validate ((ext.upgrade config).model_type.getD MODEL_ECD)
      (ext.upgrade config) with
  | error e => simp [validate_config, hs, eerror_bind]
  | ok u =>
    cases u
    cases hsp : ext.get_splitter
        (match (ext.upgrade config).preprocessing with
         | some preprocessing_section => preprocessing_section.split.getD []
         | none => []) (ext.upgrade config) with
    | error e => simp [validate_config, hs, hsp, eok_bind, eerror_bind]
    | ok u2 =>
      cases u2
      cases hc : check_validation_metrics_are_valid registry (ext.upgrade config) with
      | error e =>
        simp [validate_config, hs, hsp, hc, eok_bind, eerror_bind]
      | ok u3 =>
        cases u3
        simp [validate_config, hs, hsp, hc, eok_bind, check_feature_names_unique,
          check_tied_features_are_valid, check_dependent_features,
          check_training_runway, check_gbm_horovod_incompatibility,
          check_gbm_feature_types, check_ray_backend_in_memory_preprocessing,
          check_sequence_concat_combiner_requirements,
          check_tabtransformer_combiner_requirements,
          check_comparator_combiner_requirements, check_class_balance_preprocessing,
          check_sampling_exclusivity, check_hyperopt_search_space,
          check_hyperopt_metric_targets, check_gbm_single_output_feature]

theorem run_battery_snd (registry : String → List String) (config : Config) :
    (run_battery (check_battery registry) config).2
      = check_validation_metrics_are_valid registry config := by
  cases hc : check_validation_metrics_are_valid registry config with
  | error e => simp [run_battery, check_battery, hc]
  | ok u =>
    cases u
    simp [run_battery, check_battery, hc, check_feature_names_unique,
      check_tied_features_are_valid, check_dependent_features,
      check_training_runway, check_gbm_horovod_incompatibility,
      check_gbm_feature_types, check_ray_backend_in_memory_preprocessing,
      check_sequence_concat_combiner_requirements,
      check_tabtransformer_combiner_requirements,
      check_comparator_combiner_requirements, check_class_balance_preprocessing,
      check_sampling_exclusivity, check_hyperopt_search_space,
      check_hyperopt_metric_targets, check_gbm_single_output_feature]

theorem run_battery_prefix :
    ∀ (pre rest : List (String × (Config → Except PyErr Unit))) (config : Config),
      (∀ g ∈ pre, g.2 config = Except.ok ()) →
      run_battery (pre ++ rest) config
        = (pre.map Prod.fst ++ (run_battery rest config).1,
           (run_battery rest config).2)
  | [], rest, config, _ => by simp [run_battery]
  | (n, f) :: pre, rest, config, h => by
    have hf : f config = Except.ok () := h (n, f) (List.mem_cons_self _ _)
    have hrec := run_battery_prefix pre rest config
      (fun g hg => h g (List.mem_cons_of_mem _ hg))
    simp [run_battery, hf, hrec]

theorem run_battery_head_error
    {n : String} {f : Config → Except PyErr Unit}
    {rest : List (String × (Config → Except PyErr Unit))}
    {config : Config} {e : PyErr} (hf : f config = Except.error e) :
    run_battery ((n, f) :: rest) config = ([n], Except.error e) := by
  simp [run_battery, hf]

/-! ### Lemmas for missing-key failures of the metrics check -/

theorem fold_defect (registry : String → List String) :
    ∀ (ofs : List Feature) (acc : List (String × List String)),
      (∃ f ∈ ofs, f.name = none ∨ f.type = none) →
      ∃ k, feature_metric_fold registry ofs acc
          = Except.error (PyErr.keyError k)
  | [], _, h => absurd h (by simp)
  | f :: rest, acc, h => by
    cases hn : f.name with
    | none =>
      exact ⟨NAME, by simp [feature_metric_fold, hn, getKey, eerror_bind]⟩
    | some n =>
      cases ht : f.type with
      | none =>
        exact ⟨TYPE, by simp [feature_metric_fold, hn, ht, getKey, eok_bind,
          eerror_bind]⟩
      | some t =>
        have hrest : ∃ g ∈ rest, g.name = none ∨ g.type = none := by
          rcases h with ⟨g, hg, hdef⟩
          rcases List.mem_cons.mp hg with rfl | hgr
          · rcases hdef with h1 | h1
            · rw [hn] at h1; cases h1
            · rw [ht] at h1; cases h1
          · exact ⟨g, hgr, hdef⟩
        rcases fold_defect registry rest
            (dinsert acc n (registry t)) hrest with ⟨k, hk⟩
        exact ⟨k, by simp [feature_metric_fold, hn, ht, getKey, eok_bind, hk]⟩

theorem fold_total (registry : String → List String) :
    ∀ (ofs : List Feature) (acc : List (String × List String)),
      (∀ f ∈ ofs, f.name ≠ none ∧ f.type ≠ none) →
      ∃ m, feature_metric_fold registry ofs acc = Except.ok m
  | [], acc, _ => ⟨acc, rfl⟩
  | f :: rest, acc, h => by
    rcases Option.ne_none_iff_exists'.mp (h f (List.mem_cons_self _ _)).1
      with ⟨n, hn⟩
    rcases Option.ne_none_iff_exists'.mp (h f (List.mem_cons_self _ _)).2
      with ⟨t, ht⟩
    rcases fold_total registry rest (dinsert acc n (registry t))
        (fun g hg => h g (List.mem_cons_of_mem _ hg)) with ⟨m, hm⟩
    exact ⟨m, by simp [feature_metric_fold, hn, ht, getKey, eok_bind, hm]⟩

/-! ### Concrete instances used in claim witnesses -/

/-- A metric registry giving every feature type the single metric
`accuracy`. -/
def reg0 : String → List String := fun _ => ["accuracy"]

/-- A registry distinguishing feature types. -/
def reg1 : String → List String := fun t =>
  if t = "number" then ["mean_squared_error"] else ["accuracy"]

/-- Benign externals: identity upgrader, always-passing schema validation
and splitter. -/
def ext0 : Externals :=
  ⟨fun config => config, fun _ _ => Except.ok (), fun _ _ => Except.ok ()⟩

/-- Externals whose splitter always fails. -/
def ext1 : Externals :=
  ⟨fun config => config, fun _ _ => Except.ok (),
   fun _ _ => Except.error (PyErr.keyError "splitter")⟩

def trainer0 : TrainerSection := ⟨some "a", some "accuracy", none, none⟩

def trainer_runway : TrainerSection := ⟨some "a", some "accuracy", some 2, some 100⟩

def trainer_bad : TrainerSection := ⟨some "nonexistent", some "accuracy", none, none⟩

/-- A config with two output features both named `a`. -/
def cfg_dup : Config :=
  ⟨none, some [mkFeature ("x", "number")],
   some [mkFeature ("a", "number"), mkFeature ("a", "number")],
   some trainer0, none⟩

/-- A config with both `checkpoints_per_epoch = 2` and
`steps_per_checkpoint = 100` set. -/
def cfg_runway : Config :=
  ⟨none, some [mkFeature ("x", "number")], some [mkFeature ("a", "number")],
   some trainer_runway, none⟩

/-- A config whose `trainer.validation_field` names no output feature. -/
def cfg_badfield : Config :=
  ⟨none, some [mkFeature ("x", "number")], some [mkFeature ("a", "number")],
   some trainer_bad, none⟩

/-- A config with no `trainer` section. -/
def cfg_no_trainer : Config :=
  ⟨none, none, some [mkFeature ("a", "number")], none, none⟩

/-- A config with an output feature literally named `combined` and a
validation metric that its type registry would accept. -/
def cfg_combined_bad : Config :=
  ⟨none, none, some [mkFeature ("combined", "text")],
   some ⟨some "combined", some "accuracy", none, none⟩, none⟩

/-- As `cfg_combined_bad` but with the loss metric. -/
def cfg_combined_ok : Config :=
  ⟨none, none, some [mkFeature ("combined", "text")],
   some ⟨some "combined", some "loss", none, none⟩, none⟩

/-- The gathered `(rank, host)` list of the two-host example. -/
def gather_ex : List (Nat × String) :=
  [(0, "H1"), (1, "H2"), (2, "H1"), (3, "H2"), (4, "H1")]

/-! ### Claim theorems -/

/-- C3: the spec requires that a config with two output features of the same
name is rejected with a uniqueness violation, but `check_feature_names_unique`
is a `pass` stub in the source, so the full pipeline (benign externals)
accepts `cfg_dup`, whose two output features are both named `a`.  This
evaluates the code at the failing input of the code_bug verdict. -/
theorem duplicate_feature_names_accepted :
    cfg_dup.output_features
      = some [mkFeature ("a", "number"), mkFeature ("a", "number")]
    ∧ check_feature_names_unique cfg_dup = Except.ok ()
    ∧ validate_config ext0 reg0 cfg_dup true = Except.ok () :=
  ⟨rfl, rfl, rfl⟩

/-- C4: the spec requires that `trainer.checkpoints_per_epoch` and
`trainer.steps_per_checkpoint` must not both be set, but
`check_training_runway` is a `pass` stub in the source, so the full pipeline
accepts `cfg_runway`, which sets both (2 and 100).  This evaluates the code
at the failing input of the code_bug verdict. -/
theorem training_runway_both_set_accepted :
    cfg_runway.trainer = some trainer_runway
    ∧ trainer_runway.checkpoints_per_epoch = some 2
    ∧ trainer_runway.steps_per_checkpoint = some 100
    ∧ check_training_runway cfg_runway = Except.ok ()
    ∧ validate_config ext0 reg0 cfg_runway true = Except.ok () :=
  ⟨rfl, rfl, rfl, rfl, rfl⟩

/-- C5: for every gathered list containing the caller's own pair,
`local_rank_and_size` returns `local_rank` = number of same-host entries of
strictly smaller global rank and `local_size` = number of same-host entries;
in particular on hosts H1 (ranks 0,2,4) and H2 (ranks 1,3) the H1 workers
compute local ranks 0,1,2 with size 3 and the H2 workers 0,1 with size 2. -/
theorem local_rank_and_size_spec (rank : Nat) (host : String)
    (output : List (Nat × String)) (_hmem : (rank, host) ∈ output) :
    local_rank_and_size rank host output
      = (output.countP (fun p => p.2 == host && decide (p.1 < rank)),
         output.countP (fun p => p.2 == host))
    ∧ (local_rank_and_size 0 "H1" gather_ex = (0, 3)
       ∧ local_rank_and_size 2 "H1" gather_ex = (1, 3)
       ∧ local_rank_and_size 4 "H1" gather_ex = (2, 3)
       ∧ local_rank_and_size 1 "H2" gather_ex = (0, 2)
       ∧ local_rank_and_size 3 "H2" gather_ex = (1, 2)) :=
  ⟨local_rank_and_size_eq_counts rank host output, by decide⟩

/-- Witness for C5 at a concrete input. -/
theorem local_rank_and_size_spec_witness :
    local_rank_and_size 2 "H1" gather_ex
      = (gather_ex.countP (fun p => p.2 == "H1" && decide (p.1 < 2)),
         gather_ex.countP (fun p => p.2 == "H1")) :=
  (local_rank_and_size_spec 2 "H1" gather_ex (by decide)).1

/-- C7: with `include_auxiliary_validations = false`, `validate_config`
performs only the upgrade, the model-type determination (defaulting to
`ecd`) and the structural schema validation: its result is exactly the
structural validation of the upgraded config, and it is unchanged when the
splitter external and the metric registry are replaced arbitrarily (so no
splitter is constructed or consulted and no semantic check runs). -/
theorem skip_auxiliary_structural_only (ext ext2 : Externals)
    (registry registry2 : String → List String) (config : Config)
    (hup : ext2.upgrade = ext.upgrade)
    (hsv : ext2.schema_validate = ext.schema_validate) :
    validate_config ext registry config false
      = ext.schema_validate ((ext.upgrade config).model_type.getD MODEL_ECD)
          (ext.upgrade config)
    ∧ validate_config ext2 registry2 config false
      = validate_config ext registry config false := by
  refine ⟨validate_config_false_eval ext registry config, ?_⟩
  rw [validate_config_false_eval, validate_config_false_eval, hup, hsv]

/-- Witness for C7: `ext1` differs from `ext0` in its (failing) splitter,
yet structural-only validation agrees. -/
theorem skip_auxiliary_structural_only_witness :
    validate_config ext0 reg0 cfg_dup false
      = ext0.schema_validate
          ((ext0.upgrade cfg_dup).model_type.getD MODEL_ECD)
          (ext0.upgrade cfg_dup)
    ∧ validate_config ext1 (fun _ => []) cfg_dup false
      = validate_config ext0 reg0 cfg_dup false :=
  skip_auxiliary_structural_only ext0 ext1 reg0 (fun _ => []) cfg_dup rfl rfl

/-- C8: in `validate_config` with auxiliary validations enabled,
`check_validation_metrics_are_valid` runs first and the battery follows the
fixed source order; the pipeline is the structural validation, then the
splitter, then the fail-fast battery, and the first failing check aborts the
run with its error, with no later check invoked and no aggregation. -/
theorem battery_order_and_fail_fast (registry : String → List String) :
    (check_battery registry).map Prod.fst
      = ["check_validation_metrics_are_valid", "check_feature_names_unique",
         "check_tied_features_are_valid", "check_dependent_features",
         "check_training_runway", "check_gbm_horovod_incompatibility",
         "check_gbm_feature_types", "check_ray_backend_in_memory_preprocessing",
         "check_sequence_concat_combiner_requirements",
         "check_tabtransformer_combiner_requirements",
         "check_comparator_combiner_requirements",
         "check_class_balance_preprocessing", "check_sampling_exclusivity",
         "check_hyperopt_search_space", "check_hyperopt_metric_targets",
         "check_gbm_single_output_feature"]
    ∧ (∀ (ext : Externals) (config : Config),
        validate_config ext registry config true
          = (ext.schema_validate
                ((ext.upgrade config).model_type.getD MODEL_ECD)
                (ext.upgrade config) >>= fun _ =>
              ext.get_splitter
                (match (ext.upgrade config).preprocessing with
                 | some preprocessing_section =>
                     preprocessing_section.split.getD []
                 | none => []) (ext.upgrade config) >>= fun _ =>
              (run_battery (check_battery registry) (ext.upgrade config)).2))
    ∧ (∀ (config : Config) (pre : List (String × (Config → Except PyErr Unit)))
         (n : String) (f : Config → Except PyErr Unit)
         (post : List (String × (Config → Except PyErr Unit))) (e : PyErr),
        check_battery registry = pre ++ (n, f) :: post →
        (∀ g ∈ pre, g.2 config = Except.ok ()) →
        f config = Except.error e →
        run_battery (check_battery registry) config
          = (pre.map Prod.fst ++ [n], Except.error e)) := by
  refine ⟨rfl, ?_, ?_⟩
  · intro ext config
    rw [validate_config_true_eval, run_battery_snd]
  · intro config pre n f post e hdec hpre hfe
    rw [hdec, run_battery_prefix pre _ config hpre, run_battery_head_error hfe]

/-- Witness for C8: on `cfg_badfield` the metrics check is the first and
only invoked check and its error aborts the battery. -/
theorem battery_order_and_fail_fast_witness :
    run_battery (check_battery reg0) cfg_badfield
      = (["check_validation_metrics_are_valid"],
         Except.error (PyErr.valueError
           (invalid_validation_field_msg "nonexistent" ["a", COMBINED]))) :=
  (battery_order_and_fail_fast reg0).2.2 cfg_badfield []
    "check_validation_metrics_are_valid"
    (check_validation_metrics_are_valid reg0) ((check_battery reg0).tail)
    (PyErr.valueError (invalid_validation_field_msg "nonexistent" ["a", COMBINED]))
    rfl (by intro g hg; cases hg) rfl

/-- C9: `check_validation_metrics_are_valid` is not total: a config lacking
the `trainer` key, or whose trainer lacks `validation_field` or
`validation_metric`, or with an output feature lacking `name` or `type`,
fails with an unhandled `KeyError` (never the descriptive `ValueError` of a
semantic violation). -/
theorem missing_keys_raise_key_error (registry : String → List String)
    (config : Config) (ofs : List Feature)
    (hof : config.output_features = some ofs)
    (hdef : (∃ f ∈ ofs, f.name = none ∨ f.type = none)
        ∨ config.trainer = none
        ∨ (∃ tr, config.trainer = some tr ∧
            (tr.validation_field = none ∨ tr.validation_metric = none))) :
    ∃ k, check_validation_metrics_are_valid registry config
        = Except.error (PyErr.keyError k) := by
  by_cases hfd : ∃ f ∈ ofs, f.name = none ∨ f.type = none
  · obtain ⟨k, hk⟩ := fold_defect registry ofs [] hfd
    refine ⟨k, ?_⟩
    simp only [check_validation_metrics_are_valid, hof, getKey, eok_bind,
      get_feature_to_metric_names_map, hk, eerror_bind]
  · have hok : ∀ f ∈ ofs, f.name ≠ none ∧ f.type ≠ none := by
      intro f hf
      constructor
      · intro hn; exact hfd ⟨f, hf, Or.inl hn⟩
      · intro ht; exact hfd ⟨f, hf, Or.inr ht⟩
    obtain ⟨m, hm⟩ := fold_total registry ofs [] hok
    have hmap : get_feature_to_metric_names_map registry ofs
        = Except.ok (dinsert m COMBINED [LOSS]) := by
      simp only [get_feature_to_metric_names_map, hm, eok_bind]
    rcases hdef with h1 | h2 | h3
    · exact absurd h1 hfd
    · refine ⟨TRAINER, ?_⟩
      simp only [check_validation_metrics_are_valid, hof, getKey, eok_bind,
        hmap, h2, eerror_bind]
    · obtain ⟨tr, htr, hvd⟩ := h3
      rcases hvd with hvf | hvm
      · refine ⟨"validation_field", ?_⟩
        simp only [check_validation_metrics_are_valid, hof, getKey, eok_bind,
          hmap, htr, hvf, eerror_bind]
      · cases hvf : tr.validation_field with
        | none =>
          refine ⟨"validation_field", ?_⟩
          simp only [check_validation_metrics_are_valid, hof, getKey, eok_bind,
            hmap, htr, hvf, eerror_bind]
        | some vf =>
          refine ⟨"validation_metric", ?_⟩
          simp only [check_validation_metrics_are_valid, hof, getKey, eok_bind,
            hmap, htr, hvf, hvm, eerror_bind]

/-- Witness for C9: a config with no `trainer` section. -/
theorem missing_keys_raise_key_error_witness :
    ∃ k, check_validation_metrics_are_valid reg0 cfg_no_trainer
        = Except.error (PyErr.keyError k) :=
  missing_keys_raise_key_error reg0 cfg_no_trainer [mkFeature ("a", "number")]
    rfl (Or.inr (Or.inl rfl))

/-- C10: `get_feature_to_metric_names_map` always ends by assigning
`combined` to exactly `[loss]`, so an output feature literally named
`combined` has its registered metrics silently overwritten (only the loss
metric is then accepted as `trainer.validation_metric`, as the concrete
conjuncts show), and among duplicate-named output features only the last
one's metric list survives in the map. -/
theorem metric_map_combined_overwrite :
    (∀ (registry : String → List String) (ofs : List Feature)
        (m : List (String × List String)),
      get_feature_to_metric_names_map registry ofs = Except.ok m →
      dlookup m COMBINED = some [LOSS])
    ∧ (∀ (registry : String → List String) (pre : List (String × String))
         (n t : String) (m : List (String × List String)), n ≠ COMBINED →
        get_feature_to_metric_names_map registry
            ((pre ++ [(n, t)]).map mkFeature) = Except.ok m →
        dlookup m n = some (registry t))
    ∧ check_validation_metrics_are_valid reg1 cfg_combined_bad
        = Except.error (PyErr.valueError
            (invalid_validation_metric_msg "accuracy" "combined"
              [("combined", ["loss"])]))
    ∧ check_validation_metrics_are_valid reg1 cfg_combined_ok
        = Except.ok () := by
  refine ⟨?_, ?_, rfl, rfl⟩
  · intro registry ofs m hm
    cases hfold : feature_metric_fold registry ofs [] with
    | error e =>
      have : get_feature_to_metric_names_map registry ofs = Except.error e := by
        simp [get_feature_to_metric_names_map, hfold, eerror_bind]
      rw [this] at hm
      cases hm
    | ok m0 =>
      have : get_feature_to_metric_names_map registry ofs
          = Except.ok (dinsert m0 COMBINED [LOSS]) := by
        simp [get_feature_to_metric_names_map, hfold, eok_bind]
      rw [this] at hm
      injection hm with hm'
      rw [← hm']
      exact dlookup_dinsert_self _ _ _
  · intro registry pre n t m hn hm
    rw [get_map_named] at hm
    injection hm with hm'
    rw [← hm', dlookup_dinsert_ne _ hn, List.foldl_append]
    simp only [List.foldl_cons, List.foldl_nil]
    exact dlookup_dinsert_self _ _ _

/-- Witness for C10: with two output features named `b` (types `number`
then `text`), the metric list of the later `text` feature wins. -/
theorem metric_map_combined_overwrite_witness :
    dlookup [("b", ["accuracy"]), (COMBINED, [LOSS])] "b"
      = some (reg1 "text") :=
  metric_map_combined_overwrite.2.1 reg1 [("b", "number")] "b" "text"
    [("b", ["accuracy"]), (COMBINED, [LOSS])] (by decide) rfl

/-- C2: every check of the battery, run on a config that is well-keyed (all
output features carry a name and a type, and the trainer section carries
both validation settings), either returns normally or fails with the
semantic-violation error (`ValueError` carrying a message that names the
offending validation field or metric value), never any other error kind. -/
theorem battery_errors_are_value_errors (registry : String → List String)
    (nf : String × (Config → Except PyErr Unit))
    (hmem : nf ∈ check_battery registry)
    (config : Config) (named : List (String × String)) (tr : TrainerSection)
    (vf vm : String)
    (hof : config.output_features = some (named.map mkFeature))
    (htr : config.trainer = some tr)
    (hvf : tr.validation_field = some vf)
    (hvm : tr.validation_metric = some vm)
    (e : PyErr) (he : nf.2 config = Except.error e) :
    ∃ msg, e = PyErr.valueError msg
      ∧ ∃ s t, msg = s ++ (vf ++ t) ∨ msg = s ++ (vm ++ t) := by
  simp only [check_battery, List.mem_cons, List.not_mem_nil, or_false] at hmem
  rcases hmem with h | hrest
  · subst h
    replace he : check_validation_metrics_are_valid registry config
        = Except.error e := he
    have hmap := get_map_named registry named
    rw [check_eval registry config (named.map mkFeature) tr vf vm _
      hof hmap htr hvf hvm] at he
    by_cases hcont : dcontains
        (dinsert (named.foldl (fun m p => dinsert m p.1 (registry p.2)) [])
          COMBINED [LOSS]) vf = false
    · rw [if_pos hcont] at he
      injection he with he'
      refine ⟨_, he'.symm, "The specified trainer.validation_field ", _,
        Or.inl rfl⟩
    · rw [if_neg hcont] at he
      have hcontT : dcontains
          (dinsert (named.foldl (fun m p => dinsert m p.1 (registry p.2)) [])
            COMBINED [LOSS]) vf = true := by
        simpa using hcont
      obtain ⟨mn, hmn⟩ := dcontains_some hcontT
      simp only [hmn] at he
      by_cases hvmc : mn.contains vm = false
      · rw [if_pos hvmc] at he
        injection he with he'
        refine ⟨_, he'.symm, "The specified trainer.validation_metric ", _,
          Or.inr rfl⟩
      · rw [if_neg hvmc] at he
        exact Except.noConfusion he
  · rcases hrest with h|h|h|h|h|h|h|h|h|h|h|h|h|h|h <;> subst h <;>
      exact Except.noConfusion he

/-- Witness for C2: the first battery entry, on a config whose validation
field names no feature, fails with the `ValueError` naming that field. -/
theorem battery_errors_are_value_errors_witness :
    ∃ msg, PyErr.valueError
        (invalid_validation_field_msg "nonexistent" ["a", COMBINED])
        = PyErr.valueError msg
      ∧ ∃ s t, msg = s ++ ("nonexistent" ++ t) ∨ msg = s ++ ("accuracy" ++ t) :=
  battery_errors_are_value_errors reg0
    ("check_validation_metrics_are_valid",
      check_validation_metrics_are_valid reg0)
    (List.Mem.head _) cfg_badfield [("a", "number")] trainer_bad
    "nonexistent" "accuracy" rfl rfl rfl rfl
    (PyErr.valueError (invalid_validation_field_msg "nonexistent" ["a", COMBINED]))
    rfl

/-- C1: for an upgraded config whose output features each carry a name and a
type (represented by `named`, with distinct names none of which is the
combined keyword, so that the claim's reading is unambiguous) and whose
trainer section carries both validation settings,
`check_validation_metrics_are_valid` raises iff `trainer.validation_field`
names neither an output feature nor the combined objective, or
`trainer.validation_metric` is not among the registered metric names of the
named feature's type (the loss metric in the combined case); under benign
externals `validate_config` with auxiliary validations reduces to this
check, and the raised error names the offending field or metric value. -/
theorem validation_metrics_check_iff (registry : String → List String)
    (config : Config) (named : List (String × String)) (tr : TrainerSection)
    (vf vm : String) (ext : Externals)
    (hof : config.output_features = some (named.map mkFeature))
    (htr : config.trainer = some tr)
    (hvf : tr.validation_field = some vf)
    (hvm : tr.validation_metric = some vm)
    (hnd : (named.map Prod.fst).Nodup)
    (hnc : COMBINED ∉ named.map Prod.fst)
    (hup : ext.upgrade config = config)
    (hschema : ∀ mt c, ext.schema_validate mt c = Except.ok ())
    (hsplit : ∀ so c, ext.get_splitter so c = Except.ok ()) :
    ((∃ e, check_validation_metrics_are_valid registry config = Except.error e)
      ↔ (¬(vf ∈ named.map Prod.fst ∨ vf = COMBINED)
         ∨ ¬(if vf = COMBINED then vm = LOSS
             else ∃ p ∈ named, p.1 = vf ∧ vm ∈ registry p.2)))
    ∧ validate_config ext registry config true
        = check_validation_metrics_are_valid registry config
    ∧ (∀ e, check_validation_metrics_are_valid registry config
          = Except.error e →
        ∃ msg, e = PyErr.valueError msg
          ∧ ((vf ∈ named.map Prod.fst ∨ vf = COMBINED) →
              ∃ s t, msg = s ++ (vm ++ t))
          ∧ (¬(vf ∈ named.map Prod.fst ∨ vf = COMBINED) →
              ∃ s t, msg = s ++ (vf ++ t))) := by
  have hpipe : validate_config ext registry config true
      = check_validation_metrics_are_valid registry config := by
    rw [validate_config_true_eval, hup, hschema, eok_bind, hsplit, eok_bind]
  have hmap := get_map_named_nodup registry named hnd hnc
  have heval := check_eval registry config (named.map mkFeature) tr vf vm _
    hof hmap htr hvf hvm
  by_cases hfield : vf ∈ named.map Prod.fst ∨ vf = COMBINED
  · have hcont : dcontains
        (named.map (fun p => (p.1, registry p.2)) ++ [(COMBINED, [LOSS])])
          vf = true :=
      (M_contains_iff registry named vf).mpr hfield
    have hcontF : ¬ dcontains
        (named.map (fun p => (p.1, registry p.2)) ++ [(COMBINED, [LOSS])])
          vf = false := by
      simp [hcont]
    rw [if_neg hcontF] at heval
    by_cases hvcomb : vf = COMBINED
    · subst hvcomb
      simp only [M_lookup_combined registry named hnc] at heval
      by_cases hvml : vm = LOSS
      · have hcf : ¬ ([LOSS].contains vm = false) := by simp [hvml]
        rw [if_neg hcf] at heval
        refine ⟨?_, hpipe, ?_⟩
        · rw [heval]
          constructor
          · rintro ⟨e, hee⟩
            exact Except.noConfusion hee
          · rintro (hc | hc)
            · exact absurd hfield hc
            · rw [if_pos rfl] at hc
              exact absurd hvml hc
        · intro e he
          rw [heval] at he
          exact Except.noConfusion he
      · have hcf : [LOSS].contains vm = false := by simp [hvml]
        rw [if_pos hcf] at heval
        refine ⟨?_, hpipe, ?_⟩
        · rw [heval]
          constructor
          · intro _
            refine Or.inr ?_
            rw [if_pos rfl]
            exact hvml
          · intro _
            exact ⟨_, rfl⟩
        · intro e he
          rw [heval] at he
          injection he with he'
          refine ⟨_, he'.symm, ?_, ?_⟩
          · intro _
            exact ⟨"The specified trainer.validation_metric ", _, rfl⟩
          · intro hcontra
            exact absurd hfield hcontra
    · have hmemv : vf ∈ named.map Prod.fst := hfield.resolve_right hvcomb
      obtain ⟨q, hq, hq1⟩ := List.mem_map.mp hmemv
      have hlook : dlookup
          (named.map (fun p => (p.1, registry p.2)) ++ [(COMBINED, [LOSS])])
            vf = some (registry q.2) := by
        rw [← hq1]
        exact M_lookup_mem registry hnd hq
      simp only [hlook] at heval
      by_cases hvmm : vm ∈ registry q.2
      · have hcf : ¬ ((registry q.2).contains vm = false) := by simp [hvmm]
        rw [if_neg hcf] at heval
        refine ⟨?_, hpipe, ?_⟩
        · rw [heval]
          constructor
          · rintro ⟨e, hee⟩
            exact Except.noConfusion hee
          · rintro (hc | hc)
            · exact absurd hfield hc
            · rw [if_neg hvcomb] at hc
              exact absurd ⟨q, hq, hq1, hvmm⟩ hc
        · intro e he
          rw [heval] at he
          exact Except.noConfusion he
      · have hcf : (registry q.2).contains vm = false := by simp [hvmm]
        rw [if_pos hcf] at heval
        refine ⟨?_, hpipe, ?_⟩
        · rw [heval]
          constructor
          · intro _
            refine Or.inr ?_
            rw [if_neg hvcomb]
            rintro ⟨p, hp, hp1, hpm⟩
            have hpq : p = q :=
              List.inj_on_of_nodup_map hnd hp hq (by rw [hp1, hq1])
            exact hvmm (hpq ▸ hpm)
          · intro _
            exact ⟨_, rfl⟩
        · intro e he
          rw [heval] at he
          injection he with he'
          refine ⟨_, he'.symm, ?_, ?_⟩
          · intro _
            exact ⟨"The specified trainer.validation_metric ", _, rfl⟩
          · intro hcontra
            exact absurd hfield hcontra
  · have hcont : dcontains
        (named.map (fun p => (p.1, registry p.2)) ++ [(COMBINED, [LOSS])])
          vf = false := by
      cases hc : dcontains
          (named.map (fun p => (p.1, registry p.2)) ++ [(COMBINED, [LOSS])])
            vf
      · rfl
      · exact absurd ((M_contains_iff registry named vf).mp hc) hfield
    rw [if_pos hcont] at heval
    refine ⟨?_, hpipe, ?_⟩
    · constructor
      · intro _
        exact Or.inl hfield
      · intro _
        exact ⟨_, heval⟩
    · intro e he
      rw [heval] at he
      injection he with he'
      refine ⟨_, he'.symm, ?_, ?_⟩
      · intro hcontra
        exact absurd hcontra hfield
      · intro _
        exact ⟨"The specified trainer.validation_field ", _, rfl⟩

/-- Witness for C1 at a concrete input: `validation_field = nonexistent`
names neither the output feature `a` nor the combined objective, so the
check raises. -/
theorem validation_metrics_check_iff_witness :
    (∃ e, check_validation_metrics_are_valid reg0 cfg_badfield
        = Except.error e)
      ↔ (¬("nonexistent" ∈ [(("a" : String), ("number" : String))].map Prod.fst
            ∨ "nonexistent" = COMBINED)
         ∨ ¬(if "nonexistent" = COMBINED then "accuracy" = LOSS
             else ∃ p ∈ [(("a" : String), ("number" : String))],
               p.1 = "nonexistent" ∧ "accuracy" ∈ reg0 p.2)) :=
  (validation_metrics_check_iff reg0 cfg_badfield [("a", "number")]
    trainer_bad "nonexistent" "accuracy" ext0 rfl rfl rfl rfl (by decide)
    (by decide) rfl (fun _ _ => rfl) (fun _ _ => rfl)).1

/-! ### Density of the computed local ranks (for the all-gather protocol) -/

theorem rank_counts_dense (l : List Nat) (h : l.Nodup) :
    (l.map fun r => l.countP (fun x => decide (x < r))).Nodup
    ∧ (l.map fun r => l.countP (fun x => decide (x < r))).toFinset
        = Finset.range l.length := by
  classical
  have hcard : l.toFinset.card = l.length := List.toFinset_card_of_nodup h
  have hgF : ∀ r : Nat, l.countP (fun x => decide (x < r))
      = (l.toFinset.filter (fun x => x < r)).card := by
    intro r
    rw [List.countP_eq_length_filter,
      ← List.toFinset_card_of_nodup (h.filter _), List.toFinset_filter]
    congr 1
    apply Finset.filter_congr
    intro x _
    simp
  have hmono : ∀ a ∈ l.toFinset, ∀ b ∈ l.toFinset, a < b →
      (l.toFinset.filter (fun x => x < a)).card
        < (l.toFinset.filter (fun x => x < b)).card := by
    intro a ha b _ hab
    apply Finset.card_lt_card
    rw [Finset.ssubset_iff_of_subset
      (Finset.monotone_filter_right l.toFinset (fun x hx => lt_trans hx hab))]
    exact ⟨a, Finset.mem_filter.mpr ⟨ha, hab⟩,
      fun hc => absurd (Finset.mem_filter.mp hc).2 (lt_irrefl a)⟩
  have hbound : ∀ a ∈ l.toFinset,
      (l.toFinset.filter (fun x => x < a)).card < l.toFinset.card := by
    intro a ha
    apply Finset.card_lt_card
    rw [Finset.ssubset_iff_of_subset (Finset.filter_subset _ _)]
    exact ⟨a, ha, fun hc => absurd (Finset.mem_filter.mp hc).2 (lt_irrefl a)⟩
  have hinj : ∀ a ∈ l.toFinset, ∀ b ∈ l.toFinset,
      (l.toFinset.filter (fun x => x < a)).card
        = (l.toFinset.filter (fun x => x < b)).card → a = b := by
    intro a ha b hb hab
    rcases lt_trichotomy a b with hlt | heq | hgt
    · exact absurd hab (Nat.ne_of_lt (hmono a ha b hb hlt))
    · exact heq
    · exact absurd hab.symm (Nat.ne_of_lt (hmono b hb a ha hgt))
  constructor
  · refine List.Nodup.map_on ?_ h
    intro x hx y hy hxy
    rw [hgF x, hgF y] at hxy
    exact hinj x (List.mem_toFinset.mpr hx) y (List.mem_toFinset.mpr hy) hxy
  · have hmapF : (l.map fun r => l.countP (fun x => decide (x < r)))
        = l.map (fun r => (l.toFinset.filter (fun x => x < r)).card) :=
      List.map_congr_left (fun r _ => hgF r)
    rw [hmapF]
    have htf : (l.map fun r => (l.toFinset.filter (fun x => x < r)).card).toFinset
        = l.toFinset.image (fun r => (l.toFinset.filter (fun x => x < r)).card) := by
      ext y
      simp [List.mem_toFinset, List.mem_map, Finset.mem_image]
    rw [htf]
    have himsub : l.toFinset.image
        (fun r => (l.toFinset.filter (fun x => x < r)).card)
          ⊆ Finset.range l.toFinset.card := by
      intro y hy
      rcases Finset.mem_image.mp hy with ⟨r, hr, rfl⟩
      exact Finset.mem_range.mpr (hbound r hr)
    have hicard : (l.toFinset.image
        (fun r => (l.toFinset.filter (fun x => x < r)).card)).card
          = l.toFinset.card :=
      Finset.card_image_of_injOn
        (fun a ha b hb hfab =>
          hinj a (Finset.mem_coe.mp ha) b (Finset.mem_coe.mp hb) hfab)
    have him := Finset.eq_of_subset_of_card_le himsub
      (le_of_eq (by rw [Finset.card_range, hicard]))
    rw [him, hcard]

/-- C6: for a gathered list with pairwise-distinct global ranks, all viewed
identically by every worker, the local ranks computed by the workers of any
one host are dense and deterministic: every worker on the host computes the
same `local_size` (the host's group size) and the multiset of computed local
ranks is exactly `{0, ..., local_size - 1}` with no gaps or duplicates. -/
theorem local_ranks_dense (output : List (Nat × String)) (host : String)
    (hnd : (output.map Prod.fst).Nodup) :
    (∀ p ∈ output.filter (fun q => q.2 == host),
        (local_rank_and_size p.1 p.2 output).2
          = (output.filter (fun q => q.2 == host)).length)
    ∧ ((output.filter (fun q => q.2 == host)).map
        (fun p => (local_rank_and_size p.1 p.2 output).1)).Nodup
    ∧ ((output.filter (fun q => q.2 == host)).map
        (fun p => (local_rank_and_size p.1 p.2 output).1)).toFinset
        = Finset.range (output.filter (fun q => q.2 == host)).length := by
  have hhost : ∀ p ∈ output.filter (fun q => q.2 == host), p.2 = host := by
    intro p hp
    have := List.of_mem_filter hp
    simpa using this
  have hsize : ∀ p ∈ output.filter (fun q => q.2 == host),
      (local_rank_and_size p.1 p.2 output).2
        = (output.filter (fun q => q.2 == host)).length := by
    intro p hp
    rw [hhost p hp, local_rank_and_size_eq_counts]
    show output.countP (fun q => q.2 == host)
        = (output.filter (fun q => q.2 == host)).length
    rw [List.countP_eq_length_filter]
  have hrank : ∀ p ∈ output.filter (fun q => q.2 == host),
      (local_rank_and_size p.1 p.2 output).1
        = ((output.filter (fun q => q.2 == host)).map Prod.fst).countP
            (fun x => decide (x < p.1)) := by
    intro p hp
    rw [hhost p hp, local_rank_and_size_eq_counts]
    show output.countP (fun q => q.2 == host && decide (q.1 < p.1)) = _
    rw [List.countP_map, List.countP_filter]
    apply List.countP_congr
    intro a _
    simp [Bool.and_comm, Function.comp]
  have hlocals : ((output.filter (fun q => q.2 == host)).map
      (fun p => (local_rank_and_size p.1 p.2 output).1))
        = ((output.filter (fun q => q.2 == host)).map Prod.fst).map
            (fun r => ((output.filter (fun q => q.2 == host)).map
              Prod.fst).countP (fun x => decide (x < r))) := by
    rw [List.map_map]
    exact List.map_congr_left (fun p hp => hrank p hp)
  have hranks_nodup :
      ((output.filter (fun q => q.2 == host)).map Prod.fst).Nodup :=
    List.Nodup.sublist ((List.filter_sublist output).map Prod.fst) hnd
  obtain ⟨hnd2, hfin⟩ := rank_counts_dense
    ((output.filter (fun q => q.2 == host)).map Prod.fst) hranks_nodup
  refine ⟨hsize, ?_, ?_⟩
  · rw [hlocals]
    exact hnd2
  · rw [hlocals, hfin, List.length_map]

/-- Witness for C6 at the two-host example (host H1). -/
theorem local_ranks_dense_witness :
    ((gather_ex.filter (fun q => q.2 == "H1")).map
        (fun p => (local_rank_and_size p.1 p.2 gather_ex).1)).toFinset
      = Finset.range (gather_ex.filter (fun q => q.2 == "H1")).length :=
  (local_ranks_dense gather_ex "H1" (by decide)).2.2

end Ludwig
